import Mathlib

/-!
Verification of the event classification and view derivation of
`src/preview_engine.py` (class `PreviewEngine`).

The Python program reads a JSON design directive, splits its
`preview_directive.events` array into a decision sequence (JDE) and three
audit buckets (JOE: observation / evaluation / evolution), and derives the
summary views embedded in the generated HTML page: global status, the
highlighted "one thing" action, leading signal cards, recent history rows
and per-stage reasoning sections.

Every definition below is a direct shallow embedding of the corresponding
Python code: a Python dict field `e.get(key, default)` becomes an
`Option` field read with `Option.getD`, Python truthiness of an optional
boolean becomes `Option.getD false`, and list slices become
`List.take` / `List.drop`.
-/

/-- One record of `preview_directive.events`. Each field models a key of the
Python dict: `none` means the key is absent. Only keys the engine reads are
modelled. -/
structure Event where
  stage : Option Int := none
  type : Option String := none
  title : Option String := none
  description : Option String := none
  icon : Option String := none
  value : Option String := none
  progress : Option Int := none
  time : Option String := none
  status : Option String := none
  human_gate : Option Bool := none
  safety_trigger : Option Bool := none
  reasoning : Option String := none
  action_label : Option String := none
deriving DecidableEq, Repr

/-- The `joe_data` dict built by `_get_events`: the three audit buckets. -/
structure JoeData where
  observation : List Event := []
  evaluation : List Event := []
  evolution : List Event := []
deriving DecidableEq, Repr

/-- The bucket dict `_get_events` initialises (and returns on the error path). -/
def emptyJoe : JoeData := {}

/-- `e.get("stage", 0)`: the dispatch value of the classification loop. -/
def stageOf (e : Event) : Int := e.stage.getD 0

/-- The classification loop of `_get_events`: a single pass over the events,
appending each to the group chosen by the `if stage <= 7 / elif stage == 8 /
elif stage == 9 / elif stage == 10` chain (anything else is dropped).
Processing the head first and prepending to the classified tail yields the
same order as the Python loop's left-to-right appends. -/
def classify : List Event → List Event × JoeData
  | [] => ([], emptyJoe)
  | e :: rest =>
    let r := classify rest
    let s := stageOf e
    if s ≤ 7 then (e :: r.1, r.2)
    else if s = 8 then (r.1, { r.2 with observation := e :: r.2.observation })
    else if s = 9 then (r.1, { r.2 with evaluation := e :: r.2.evaluation })
    else if s = 10 then (r.1, { r.2 with evolution := e :: r.2.evolution })
    else r

/-- The `preview_directive` value of the root JSON object as `_get_events`
addresses it: the key may be missing (the first `.get` defaults to `{}`),
present but not a JSON object (the second `.get` raises `AttributeError`,
which the surrounding `try` catches), or an object whose `events` key may in
turn be absent (the second `.get` defaults to `[]`). -/
inductive PreviewDirective
  | missing
  | notObject
  | object (events : Option (List Event))
deriving DecidableEq, Repr

/-- The root design-directive document, restricted to the keys the engine
reads (`preview_directive`, `system_name`, `version`). -/
structure DesignData where
  preview_directive : PreviewDirective := .missing
  system_name : Option String := none
  version : Option String := none
deriving DecidableEq, Repr

/-- `_get_events`: resolve `preview_directive.events` with defaulting `.get`
calls, return empty outputs on the `AttributeError` path, and otherwise run
the classification loop on the events found (an absent key yields `[]`). -/
def getEvents (d : DesignData) : List Event × JoeData :=
  match d.preview_directive with
  | .missing => classify []
  | .notObject => ([], emptyJoe)
  | .object none => classify []
  | .object (some evs) => classify evs

/-- Python truthiness of an optional boolean field: `e.get(key)` is `None`
(falsy) when the key is absent. -/
def flag (o : Option Bool) : Bool := o.getD false

/-- The predicate of the `warning_count` generator expression:
`e.get("safety_trigger") or e.get("human_gate")`. -/
def warnFlag (e : Event) : Bool := flag e.safety_trigger || flag e.human_gate

/-- `warning_count = sum(1 for e in jde_events if ...)`. -/
def warningCount (jde : List Event) : Nat := jde.countP warnFlag

/-- The `global_status` string: `"Warning"` when `warning_count > 0`,
otherwise the initial `"OK"`. -/
def globalStatus (jde : List Event) : String :=
  if warningCount jde > 0 then "Warning" else "OK"

/-- The `global_message` string, a template embedding `warning_count`. -/
def globalMessage (jde : List Event) : String :=
  if warningCount jde > 0 then
    "주의가 필요한 항목이 " ++ toString (warningCount jde) ++ "개 있습니다"
  else "오늘 전체 운영 상태는 정상입니다"

/-- `e.get("type") == "action"`: an absent `type` compares unequal. -/
def isAction (e : Event) : Bool := e.type = some "action"

/-- `one_thing = next((e for e in jde_events if e.get("type") == "action"), None)`. -/
def oneThing (jde : List Event) : Option Event := jde.find? isAction

/-- The data shown by the `one_thing_html` card. -/
structure OneThingView where
  title : String
  description : String
  action_label : String
deriving DecidableEq, Repr

/-- The highlighted-action card: rendered only when `one_thing` is not `None`
(otherwise `one_thing_html` stays the empty string and no card appears). -/
def oneThingView (jde : List Event) : Option OneThingView :=
  (oneThing jde).map fun e =>
    ⟨e.title.getD "", e.description.getD "", e.action_label.getD "실행하기"⟩

/-- The `status` computed for a signal card: `safety_trigger` wins, then
`human_gate`, else `"normal"`. -/
def signalStatus (e : Event) : String :=
  if flag e.safety_trigger then "danger"
  else if flag e.human_gate then "warning"
  else "normal"

/-- The data shown by one signal card. -/
structure SignalCard where
  status : String
  icon : String
  title : String
  value : String
  progress : Int
deriving DecidableEq, Repr

/-- One signal card, with the defaults the f-string applies. -/
def mkSignalCard (e : Event) : SignalCard :=
  ⟨signalStatus e, e.icon.getD "📊", e.title.getD "", e.value.getD "", e.progress.getD 0⟩

/-- `for i, event in enumerate(jde_events[:4])`: the first four records. -/
def signalCards (jde : List Event) : List SignalCard := (jde.take 4).map mkSignalCard

/-- The data shown by one row of the Recent History table. The rendered row
uses `event.get("status", "normal")` for the badge's CSS class but
`event.get("status", "OK")` for the badge's visible text, so both are kept. -/
structure HistoryRow where
  time : String
  title : String
  statusClass : String
  statusText : String
deriving DecidableEq, Repr

/-- One history row, with the defaults the f-string applies:
`time` defaults to `"00:00"`, `title` to `""`, the status class to
`"normal"` and the status text to `"OK"`. -/
def mkHistoryRow (e : Event) : HistoryRow :=
  ⟨e.time.getD "00:00", e.title.getD "", e.status.getD "normal", e.status.getD "OK"⟩

/-- Python slice `l[-n:]`: the last `n` elements (all of them when shorter). -/
def lastN (n : Nat) (l : List α) : List α := l.drop (l.length - n)

/-- `for i, event in enumerate(jde_events[-5:])`: the last five records. -/
def historyRows (jde : List Event) : List HistoryRow := (lastN 5 jde).map mkHistoryRow

/-- The `stage_mapping` dict of `_generate_html`. -/
def stage_mapping (s : Int) : Option String :=
  if s = 1 then some "왜 이렇게 판단했나요?"
  else if s = 2 then some "반드시 지킨 기준"
  else if s = 3 then some "위험 감지 및 보호"
  else if s = 4 then some "과거 기록"
  else if s = 5 then some "판단 근거 로그"
  else if s = 6 then some "운영 효율 상태"
  else if s = 7 then some "앞으로 바뀔 수 있는 영역"
  else none

/-- `stage_mapping.get(stage, f"Stage {stage}")`. -/
def sectionTitle (s : Int) : String := (stage_mapping s).getD ("Stage " ++ toString s)

/-- `e.get("stage") == stage`: a record with no `stage` key compares unequal
to every integer (Python `None == stage` is `False`). -/
def hasStage (s : Int) (e : Event) : Bool := e.stage = some s

/-- `e.get("reasoning", e.get("description", ""))`: the display text of a
reasoning item. -/
def displayText (e : Event) : String := e.reasoning.getD (e.description.getD "")

/-- One emitted Reasoning Coverage section. -/
structure ReasonSection where
  stage : Int
  title : String
  items : List String
deriving DecidableEq, Repr

/-- `range(1, 8)`: the stages the Reasoning Coverage loop visits, in order. -/
def stageRange : List Int := [1, 2, 3, 4, 5, 6, 7]

/-- The Reasoning Coverage loop: for each stage 1..7 in order, collect the
decision-sequence records with exactly that stage and emit a section only
when the collection is non-empty (`if stage_events:`). -/
def reasonSections (jde : List Event) : List ReasonSection :=
  stageRange.filterMap fun s =>
    if (jde.filter (hasStage s)).isEmpty then none
    else some ⟨s, sectionTitle s, (jde.filter (hasStage s)).map displayText⟩

/-- All the view data `_generate_html` derives from the document before
serialising it into markup. -/
structure Views where
  system_name : String
  version : String
  jde : List Event
  joe : JoeData
  warningCount : Nat
  globalStatus : String
  globalMessage : String
  oneThing : Option OneThingView
  signals : List SignalCard
  history : List HistoryRow
  reasons : List ReasonSection
deriving DecidableEq, Repr

/-- The whole derivation of `_generate_html`: classify the events, then build
every view from the decision sequence (the audit panel reads the buckets). -/
def buildViews (d : DesignData) : Views :=
  let r := getEvents d
  { system_name := d.system_name.getD "JJO System"
    version := d.version.getD "1.0"
    jde := r.1
    joe := r.2
    warningCount := warningCount r.1
    globalStatus := globalStatus r.1
    globalMessage := globalMessage r.1
    oneThing := oneThingView r.1
    signals := signalCards r.1
    history := historyRows r.1
    reasons := reasonSections r.1 }

/-- A record with an explicit `stage` of 0 (outside 1..10). -/
def evStage0 : Event := { title := some "Zero", stage := some 0 }

/-- A decision-layer record with no `status` key. -/
def evPlain : Event := { title := some "Plain", stage := some 1 }

/-- A record with no `stage` key whose safety flag is set. -/
def evNoStage : Event := { title := some "Flagged", safety_trigger := some true }

/-- A document whose root object has no `preview_directive` key. -/
def dMissing : DesignData := { preview_directive := .missing }

/-- A small concrete document with one event of each layer. -/
def dSample : DesignData :=
  { preview_directive := .object (some [evPlain, { stage := some 8 }])
    system_name := some "Sample"
    version := some "2.0" }

/-- The classification loop computes, group by group, a filter of the input:
the decision sequence keeps the events with dispatch value at most 7, and
each bucket the events with its exact stage value. -/
theorem classify_eq (events : List Event) :
    classify events =
      (events.filter fun e => stageOf e ≤ 7,
       { observation := events.filter fun e => stageOf e = 8
         evaluation := events.filter fun e => stageOf e = 9
         evolution := events.filter fun e => stageOf e = 10 }) := by
  induction events with
  | nil => rfl
  | cons e rest ih =>
    simp only [classify, ih, List.filter_cons]
    by_cases h7 : stageOf e ≤ 7
    · have h8 : ¬ stageOf e = 8 := by omega
      have h9 : ¬ stageOf e = 9 := by omega
      have h10 : ¬ stageOf e = 10 := by omega
      simp [h7, h8, h9, h10]
    · by_cases h8 : stageOf e = 8
      · have h9 : ¬ stageOf e = 9 := by omega
        have h10 : ¬ stageOf e = 10 := by omega
        simp [h7, h8, h9, h10]
      · by_cases h9 : stageOf e = 9
        · have h10 : ¬ stageOf e = 10 := by omega
          simp [h7, h8, h9, h10]
        · by_cases h10 : stageOf e = 10
          · simp [h7, h8, h9, h10]
          · simp [h7, h8, h9, h10]

/-- C5: For every input event sequence, the classifier is stable: the decision
sequence and each of the observation, evaluation and evolution buckets are
sublists of the input, so the relative order of the records inside every
group matches their relative order in the original sequence. -/
theorem c5_classifier_stable (events : List Event) :
    ((classify events).1.Sublist events) ∧
    ((classify events).2.observation.Sublist events) ∧
    ((classify events).2.evaluation.Sublist events) ∧
    ((classify events).2.evolution.Sublist events) := by
  simp only [classify_eq]
  exact ⟨List.filter_sublist events, List.filter_sublist events,
    List.filter_sublist events, List.filter_sublist events⟩

/-- C1: the dispatch of the classification loop is `stage <= 7`, not
`1 <= stage <= 7`: a record whose `stage` is 0 — outside [1,10], so by the
claim it should appear in none of the four groups — is placed in the
decision sequence (the three audit buckets stay empty). The module
docstring and the loop's own comment label the decision layer as stages
1–7, so this contradicts the code's own documentation. -/
theorem c1_stage0_in_decision_sequence :
    (classify [evStage0]).1 = [evStage0] ∧
    ¬ (1 ≤ stageOf evStage0 ∧ stageOf evStage0 ≤ 10) ∧
    (classify [evStage0]).2 = emptyJoe := by
  refine ⟨rfl, by decide, rfl⟩

/-- C2: for every input event sequence, `warning_count` is the number of
decision-sequence records whose `safety_trigger` or `human_gate` flag is
truthy — each record counted once even when both flags are set — and the
global status is "Warning" exactly when that count is positive, "OK"
exactly when it is zero. -/
theorem c2_global_status (events : List Event) :
    warningCount (classify events).1 =
      ((classify events).1.filter fun e =>
        flag e.safety_trigger = true ∨ flag e.human_gate = true).length ∧
    (globalStatus (classify events).1 = "Warning" ↔
      0 < warningCount (classify events).1) ∧
    (globalStatus (classify events).1 = "OK" ↔
      warningCount (classify events).1 = 0) := by
  refine ⟨?_, ?_, ?_⟩
  · rw [warningCount, List.countP_eq_length_filter]
    congr 1
    apply List.filter_congr
    intro e _
    simp [warnFlag, Bool.or_eq_true]
  · unfold globalStatus
    by_cases h : 0 < warningCount (classify events).1
    · simp [h]
    · simp [h]
  · unfold globalStatus
    by_cases h : 0 < warningCount (classify events).1
    · simp [h]
      omega
    · simp [h]
      omega

/-- C3: the Leading Signals view is exactly the first 4 records of the
decision sequence (fewer when the sequence is shorter), and the status of a
card follows the fixed precedence of the if/elif chain: a truthy
`safety_trigger` gives "danger"; otherwise a truthy `human_gate` gives
"warning"; otherwise "normal" — in particular a record with both flags set
is classified "danger" and never "warning". -/
theorem c3_leading_signals (events : List Event) :
    signalCards (classify events).1 = ((classify events).1.take 4).map mkSignalCard ∧
    (signalCards (classify events).1).length = min 4 (classify events).1.length ∧
    (∀ e : Event, flag e.safety_trigger = true → signalStatus e = "danger") ∧
    (∀ e : Event, flag e.safety_trigger = false → flag e.human_gate = true →
      signalStatus e = "warning") ∧
    (∀ e : Event, flag e.safety_trigger = false → flag e.human_gate = false →
      signalStatus e = "normal") ∧
    (∀ e : Event, flag e.safety_trigger = true → flag e.human_gate = true →
      signalStatus e = "danger" ∧ ¬ signalStatus e = "warning") := by
  refine ⟨rfl, ?_, ?_, ?_, ?_, ?_⟩
  · simp [signalCards]
  · intro e hs
    simp [signalStatus, hs]
  · intro e hs hg
    simp [signalStatus, hs, hg]
  · intro e hs hg
    simp [signalStatus, hs, hg]
  · intro e hs _
    simp [signalStatus, hs]

/-- C6 counterexample: a decision-sequence record with no `status` key
renders a history row whose displayed status text is "OK", not "normal":
only the badge's CSS class defaults to "normal". -/
theorem c6_status_text_defaults_to_OK :
    (historyRows (classify [evPlain]).1).map HistoryRow.statusText = ["OK"] ∧
    ¬ (historyRows (classify [evPlain]).1).map HistoryRow.statusText = ["normal"] := by
  refine ⟨rfl, by decide⟩

/-- C6 (amended): the Recent History view is exactly the last 5 records of
the decision sequence (fewer when shorter), in original order with the
oldest of the five first, each displaying its time (default "00:00") and
title; the status CSS class of a row defaults to "normal" when the record
has no `status` field, while the displayed status text defaults to "OK",
and both equal the `status` field when it is present. -/
theorem c6_recent_history (events : List Event) :
    historyRows (classify events).1 = (lastN 5 (classify events).1).map mkHistoryRow ∧
    (lastN 5 (classify events).1).Sublist (classify events).1 ∧
    (historyRows (classify events).1).length = min 5 (classify events).1.length ∧
    (∀ e : Event, e.status = none →
      (mkHistoryRow e).statusClass = "normal" ∧ (mkHistoryRow e).statusText = "OK") ∧
    (∀ e : Event, ∀ s : String, e.status = some s →
      (mkHistoryRow e).statusClass = s ∧ (mkHistoryRow e).statusText = s) ∧
    (∀ e : Event, (mkHistoryRow e).time = e.time.getD "00:00" ∧
      (mkHistoryRow e).title = e.title.getD "") := by
  refine ⟨rfl, List.drop_sublist _ _, ?_, ?_, ?_, ?_⟩
  · simp [historyRows, lastN]
    omega
  · intro e h
    simp [mkHistoryRow, h]
  · intro e s h
    simp [mkHistoryRow, h]
  · intro e
    exact ⟨rfl, rfl⟩

/-- A successful `find?` splits the list at the first element satisfying the
predicate: everything before it fails the predicate. -/
theorem find?_first {α : Type} {p : α → Bool} {l : List α} {a : α}
    (h : l.find? p = some a) :
    p a = true ∧ ∃ l1 l2, l = l1 ++ a :: l2 ∧ ∀ x ∈ l1, p x = false := by
  induction l with
  | nil => simp at h
  | cons x xs ih =>
    by_cases hx : p x
    · rw [List.find?_cons_of_pos _ hx] at h
      cases h
      exact ⟨hx, [], xs, rfl, by simp⟩
    · rw [List.find?_cons_of_neg _ (by simpa using hx)] at h
      obtain ⟨hpa, l1, l2, heq, hall⟩ := ih h
      refine ⟨hpa, x :: l1, l2, by simp [heq], ?_⟩
      intro y hy
      rcases List.mem_cons.mp hy with rfl | hy
      · simpa using hx
      · exact hall y hy

/-- C7: the Highlighted Action is the first record of the decision sequence,
in original order, whose `type` equals "action": when one is found it has
`type = "action"` and everything before it in the decision sequence does
not; when none exists the highlighted action is absent and no
highlighted-action view is rendered at all. -/
theorem c7_highlighted_action (events : List Event) :
    (oneThingView (classify events).1 = none ↔
      ∀ e ∈ (classify events).1, ¬ e.type = some "action") ∧
    (∀ e : Event, oneThing (classify events).1 = some e →
      e.type = some "action" ∧
      ∃ l1 l2, (classify events).1 = l1 ++ e :: l2 ∧
        ∀ x ∈ l1, ¬ x.type = some "action") ∧
    ((oneThingView (classify events).1).isSome = (oneThing (classify events).1).isSome) := by
  refine ⟨?_, ?_, by simp [oneThingView]⟩
  · rw [oneThingView, Option.map_eq_none', oneThing, List.find?_eq_none]
    constructor
    · intro h e he
      have := h e he
      simpa [isAction] using this
    · intro h e he
      simpa [isAction] using h e he
  · intro e h
    obtain ⟨hp, l1, l2, heq, hall⟩ := find?_first h
    refine ⟨by simpa [isAction] using hp, l1, l2, heq, ?_⟩
    intro x hx
    have := hall x hx
    simpa [isAction] using this

/-- The stages of the emitted Reasoning Coverage sections are the visited
stages whose collection of matching records is non-empty, in visiting
order. -/
theorem reasonSections_map_stage (jde : List Event) (ss : List Int) :
    ((ss.filterMap fun s =>
        if (jde.filter (hasStage s)).isEmpty then none
        else some (⟨s, sectionTitle s,
          (jde.filter (hasStage s)).map displayText⟩ : ReasonSection)).map
      ReasonSection.stage) =
      ss.filter fun s => !(jde.filter (hasStage s)).isEmpty := by
  induction ss with
  | nil => rfl
  | cons s rest ih =>
    simp only [List.filterMap_cons, List.filter_cons]
    by_cases h : (jde.filter (hasStage s)).isEmpty = true
    · rw [if_pos h, h]
      rw [if_neg (by decide)]
      exact ih
    · have h' : (jde.filter (hasStage s)).isEmpty = false := by
        cases hh : (jde.filter (hasStage s)).isEmpty
        · rfl
        · exact absurd hh h
      rw [if_neg h, h']
      rw [if_pos (by decide)]
      rw [List.map_cons, ih]

/-- C4: Reasoning Coverage visits stages 1 through 7 in ascending order and
emits a section for a stage exactly when at least one decision-sequence
record has that exact stage; an emitted section carries the stage's mapped
title, is non-empty, and holds exactly one item per matching record, whose
text is the record's `reasoning` field if present, else its `description`
field, else the empty string. -/
theorem c4_reasoning_coverage (events : List Event) :
    ((reasonSections (classify events).1).map ReasonSection.stage =
      stageRange.filter fun s => ∃ e ∈ (classify events).1, e.stage = some s) ∧
    (∀ sec ∈ reasonSections (classify events).1,
      sec.title = sectionTitle sec.stage ∧
      sec.items = (((classify events).1.filter (hasStage sec.stage)).map displayText) ∧
      ¬ sec.items = []) ∧
    (∀ e : Event, displayText e = e.reasoning.getD (e.description.getD "")) := by
  refine ⟨?_, ?_, fun _ => rfl⟩
  · rw [reasonSections, reasonSections_map_stage]
    apply List.filter_congr
    intro s _
    apply Bool.eq_iff_iff.mpr
    simp only [Bool.not_eq_true', List.isEmpty_eq_false_iff_exists_mem, decide_eq_true_eq,
      List.mem_filter, hasStage, decide_eq_true_eq]
  · intro sec hsec
    rw [reasonSections] at hsec
    obtain ⟨s, _, hfs⟩ := List.mem_filterMap.mp hsec
    by_cases h : ((classify events).1.filter (hasStage s)).isEmpty = true
    · rw [if_pos h] at hfs
      exact absurd hfs (by simp)
    · rw [if_neg h, Option.some_inj] at hfs
      subst hfs
      refine ⟨rfl, rfl, ?_⟩
      simp only [List.isEmpty_iff] at h
      simp [List.map_eq_nil_iff, h]

/-- The `preview_directive.events` path of a document cannot be addressed:
the `preview_directive` key is missing, its value is not an object, or the
object has no `events` key. -/
def eventsUnaddressable (d : DesignData) : Prop :=
  d.preview_directive = .missing ∨ d.preview_directive = .notObject ∨
    d.preview_directive = .object none

/-- C8: when the `preview_directive.events` path is absent or not
addressable, classification does not fail: it returns an empty decision
sequence and three empty audit buckets, and the whole view derivation still
produces output — the empty views with their default metadata. -/
theorem c8_missing_events_path (d : DesignData) (h : eventsUnaddressable d) :
    getEvents d = ([], emptyJoe) ∧
    buildViews d =
      { system_name := d.system_name.getD "JJO System"
        version := d.version.getD "1.0"
        jde := []
        joe := emptyJoe
        warningCount := 0
        globalStatus := "OK"
        globalMessage := "오늘 전체 운영 상태는 정상입니다"
        oneThing := none
        signals := []
        history := []
        reasons := [] } := by
  obtain ⟨pd, sn, ver⟩ := d
  cases pd with
  | missing => exact ⟨rfl, rfl⟩
  | notObject => exact ⟨rfl, rfl⟩
  | object evs =>
    cases evs with
    | none => exact ⟨rfl, rfl⟩
    | some l => rcases h with h | h | h <;> simp [eventsUnaddressable] at h

/-- Witness for C8: the document whose root object has no
`preview_directive` key yields the empty decision sequence, empty buckets
and the default empty views. -/
theorem c8_witness :
    getEvents dMissing = ([], emptyJoe) ∧
    buildViews dMissing =
      { system_name := "JJO System"
        version := "1.0"
        jde := []
        joe := emptyJoe
        warningCount := 0
        globalStatus := "OK"
        globalMessage := "오늘 전체 운영 상태는 정상입니다"
        oneThing := none
        signals := []
        history := []
        reasons := [] } :=
  c8_missing_events_path dMissing (Or.inl rfl)

/-- C9: the transformation is deterministic — the classification and every
derived view are pure functions of the input document, so equal documents
produce equal view data. -/
theorem c9_deterministic (d1 d2 : DesignData) (h : d1 = d2) :
    buildViews d1 = buildViews d2 ∧ getEvents d1 = getEvents d2 := by
  subst h
  exact ⟨rfl, rfl⟩

/-- Witness for C9 at a concrete document. -/
theorem c9_witness :
    buildViews dSample = buildViews dSample ∧ getEvents dSample = getEvents dSample :=
  c9_deterministic dSample dSample rfl

/-- C10: a record of the decision sequence whose `stage` is not exactly one
of the integers 1..7 (for example an absent stage, defaulted to 0, or a
negative one) is still counted by Global Status when flagged, is still
eligible for the Leading Signals view (it appears there whenever fewer than
4 records precede it) and for the Recent History view (whenever fewer than
5 records follow it), yet belongs to the matching records of no Reasoning
Coverage section, since sections match `stage` by exact equality against
1..7 only. -/
theorem c10_out_of_range_stage_in_views (events l1 l2 : List Event) (e : Event)
    (hsplit : (classify events).1 = l1 ++ e :: l2)
    (hstage : ∀ s : Int, 1 ≤ s → s ≤ 7 → ¬ e.stage = some s) :
    (warnFlag e = true → 0 < warningCount (classify events).1) ∧
    (l1.length < 4 → mkSignalCard e ∈ signalCards (classify events).1) ∧
    (l2.length < 5 → mkHistoryRow e ∈ historyRows (classify events).1) ∧
    (∀ s : Int, 1 ≤ s → s ≤ 7 → ¬ e ∈ (classify events).1.filter (hasStage s)) ∧
    (∀ sec ∈ reasonSections (classify events).1,
      ¬ e ∈ (classify events).1.filter (hasStage sec.stage)) := by
  have hmem : e ∈ (classify events).1 := by
    rw [hsplit]
    exact List.mem_append_right _ (List.mem_cons_self e l2)
  have hnofilter : ∀ s : Int, 1 ≤ s → s ≤ 7 →
      ¬ e ∈ (classify events).1.filter (hasStage s) := by
    intro s h1 h7 hin
    have := (List.mem_filter.mp hin).2
    rw [hasStage, decide_eq_true_eq] at this
    exact hstage s h1 h7 this
  refine ⟨?_, ?_, ?_, hnofilter, ?_⟩
  · intro hw
    exact List.countP_pos_iff.mpr ⟨e, hmem, hw⟩
  · intro hl
    rw [signalCards, hsplit]
    refine List.mem_map.mpr ⟨e, ?_, rfl⟩
    rw [List.take_append_eq_append_take]
    obtain ⟨m, hm⟩ : ∃ m, 4 - l1.length = m + 1 := ⟨3 - l1.length, by omega⟩
    rw [hm, List.take_succ_cons]
    exact List.mem_append_right _ (List.mem_cons_self e _)
  · intro hl
    rw [historyRows, lastN, hsplit]
    refine List.mem_map.mpr ⟨e, ?_, rfl⟩
    rw [List.drop_append_eq_append_drop]
    have hz : (l1 ++ e :: l2).length - 5 - l1.length = 0 := by
      simp only [List.length_append, List.length_cons]
      omega
    rw [hz, List.drop_zero]
    exact List.mem_append_right _ (List.mem_cons_self e l2)
  · intro sec hsec
    rw [reasonSections] at hsec
    obtain ⟨s, hs, hfs⟩ := List.mem_filterMap.mp hsec
    have hrange : 1 ≤ s ∧ s ≤ 7 := by
      simp only [stageRange, List.mem_cons, List.not_mem_nil, or_false] at hs
      rcases hs with h | h | h | h | h | h | h <;> omega
    by_cases h : ((classify events).1.filter (hasStage s)).isEmpty = true
    · rw [if_pos h] at hfs
      exact absurd hfs (by simp)
    · rw [if_neg h, Option.some_inj] at hfs
      subst hfs
      exact hnofilter s hrange.1 hrange.2

/-- Witness for C10: an input of one record with no `stage` key and a set
safety flag lands in the decision sequence, raises the warning count,
appears in the signal and history views and matches no reasoning stage. -/
theorem c10_witness :
    (warnFlag evNoStage = true → 0 < warningCount (classify [evNoStage]).1) ∧
    (([] : List Event).length < 4 →
      mkSignalCard evNoStage ∈ signalCards (classify [evNoStage]).1) ∧
    (([] : List Event).length < 5 →
      mkHistoryRow evNoStage ∈ historyRows (classify [evNoStage]).1) ∧
    (∀ s : Int, 1 ≤ s → s ≤ 7 →
      ¬ evNoStage ∈ (classify [evNoStage]).1.filter (hasStage s)) ∧
    (∀ sec ∈ reasonSections (classify [evNoStage]).1,
      ¬ evNoStage ∈ (classify [evNoStage]).1.filter (hasStage sec.stage)) :=
  c10_out_of_range_stage_in_views [evNoStage] [] [] evNoStage rfl
    (by intro s _ _ h; simp [evNoStage] at h)
